import Mathlib

/-!
# Deadline-bounded quotation relay: the server (Inner Service) and the client (Outer Requester)

A shallow embedding of `server/main.go` and `client/main.go`.

The outside world (network, file system, database, JSON library, clock and goroutine
scheduling) is passed in explicitly:

* the result of every library call is a field of an environment record;
* the outcome of the race between the worker goroutine and the context deadline is a
  field of a `Sched` record;
* Go pointers that may be nil are `Option` values, and a nil dereference is an explicit
  `panicked` / `crashed` result;
* what a goroutine does to the world (log lines, calls, writes to the response) is
  returned as a list.
-/

namespace Relay

/-! ## Go values shared by both programs -/

/-- Go `error` values. `DeadlineExceeded` is `context.DeadlineExceeded`; every other error
is carried by its message. A Go `error` that may be nil is an `Option GoError`. -/
inductive GoError where
  | DeadlineExceeded
  | other (msg : String)
deriving DecidableEq, Repr

/-- One line written through the `log` package. -/
inductive LogLine where
  | info (text : String)
  | error (text : String) (err : Option GoError)
deriving DecidableEq, Repr

/-- The constant `time.Millisecond`, a `time.Duration` counted in nanoseconds. -/
def Millisecond : Nat := 1000000

/-- A `context.Context` as far as the programs use it: its deadline on the clock, if any. -/
structure Context where
  deadline : Option Nat
deriving DecidableEq, Repr

/-- The context `context.Background()`: never done, no deadline. -/
def Background : Context := ⟨none⟩

/-- The call `context.WithTimeout(parent, timeout)` made when the clock reads `now`: the
deadline is `now + timeout`, unless the parent already ends earlier. -/
def WithTimeout (parent : Context) (now timeout : Nat) : Context :=
  match parent.deadline with
  | none => ⟨some (now + timeout)⟩
  | some d => ⟨some (min d (now + timeout))⟩

/-- The scheduling of one bounded operation.

* `start`: the clock when the runner builds its context;
* `deadlineFirst`: the `select` takes `<-ctx.Done()` before the worker reaches its last
  action (also the case where both are ready and the runtime picks `Done`);
* `expiredAtReturn`: the deadline has passed by the time the final `ctx.Err()` of the
  fall-through `return` is evaluated after a delivery was received. -/
structure Sched where
  start : Nat
  deadlineFirst : Bool
  expiredAtReturn : Bool
deriving DecidableEq, Repr

/-- The last action of a worker goroutine. -/
inductive Action (α : Type) where
  | sent (v : α)
  | returned
  | panicked
deriving DecidableEq, Repr

/-- A worker goroutine run to its last action: the lines it logged, the final content of
the variable its pointer argument refers to, and the last action. -/
structure Worker (σ α : Type) where
  log : List LogLine
  quote : σ
  action : Action α

/-- The branch the runner's `select` takes. `crash`: the worker panicked before any branch
became ready, which ends the whole process. -/
inductive Selected (α : Type) where
  | recv (v : α)
  | done
  | crash
deriving DecidableEq, Repr

/-- The `select` over `<-chn` and `<-ctx.Done()`. A value is received only if the worker
sends and the deadline does not come first; a worker that returns without sending leaves
only the `Done` branch. When the deadline comes first the runner leaves through `Done`
whatever the worker does afterwards: what becomes of a worker abandoned at its send is the
subject of `Handoff` below, and a worker that panics after the runner has returned still
ends the process, which is not recorded here. -/
def selectBranch {α : Type} (a : Action α) (s : Sched) : Selected α :=
  match a, s.deadlineFirst with
  | Action.sent v, false => Selected.recv v
  | Action.panicked, false => Selected.crash
  | _, _ => Selected.done

/-- The `ctx.Err()` of the fall-through `return` reached after a delivery was received: nil
unless the deadline has passed in between. After `<-ctx.Done()` the same call gives
`context.DeadlineExceeded`, since nothing else cancels the context before the return. -/
def errAfterRecv (s : Sched) : Option GoError :=
  if s.expiredAtReturn then some GoError.DeadlineExceeded else none

/-- What a call yields: its Go return values, or nothing because the process crashed (or
the calling goroutine panicked) before it returned. -/
inductive Outcome (ρ : Type) where
  | crashed
  | returned (r : ρ)
deriving DecidableEq, Repr

/-- A bounded runner after its `select`: its own log lines, the context it built, the
worker it started and what it yields. -/
structure Run (σ α ρ : Type) where
  log : List LogLine
  ctx : Context
  worker : Worker σ α
  outcome : Outcome ρ

/-- The result of `json.Unmarshal(body, &quote)` where `quote` is itself a pointer:
`ptr` is what the pointer refers to afterwards (`none`: the pointer was reset to nil, as
for the JSON text `null`), `err` the returned error. -/
structure Unmarshal (α : Type) where
  ptr : Option α
  err : Option GoError

/-- The result of `http.DefaultClient.Do(req)`: a response with a nil error, or an error.
With an error the response is nil, except when the redirect policy fails, where the last
response comes back next to the error (`withResponse`). -/
inductive DoResult where
  | ok
  | failed (err : GoError) (withResponse : Bool)
deriving DecidableEq, Repr

/-- The outside world of an HTTP worker: the results of `http.NewRequestWithContext`,
`http.DefaultClient.Do`, `io.ReadAll` (the bytes read and the error) and
`json.Unmarshal` (given the body and the current content of the target). -/
structure HttpEnv (α : Type) where
  newRequest : Option GoError
  doRequest : DoResult
  readAll : String × Option GoError
  unmarshal : String → α → Unmarshal α

/-! ## The server: `server/main.go` -/

namespace Server

/-- The struct `QuoteDetail`: every field is a Go string. -/
structure QuoteDetail where
  Code : String
  CodeIn : String
  Name : String
  High : String
  Low : String
  VarBid : String
  PctChange : String
  Bid : String
  Ask : String
  Timestamp : String
  CreateDate : String
deriving DecidableEq, Repr

/-- The struct `CurrencyQuote` of the server. -/
structure CurrencyQuote where
  USDBRL : QuoteDetail
deriving DecidableEq, Repr

/-- The zero value of `CurrencyQuote`, as declared by `var quote CurrencyQuote`. -/
def CurrencyQuote.zero : CurrencyQuote :=
  ⟨⟨"", "", "", "", "", "", "", "", "", "", ""⟩⟩

/-- A JSON object whose members are strings, in the order they are written. -/
abbrev JsonObject := List (String × String)

/-- The object `json.Encoder.Encode` writes for a `QuoteDetail`: one member per field, in
declaration order, named by the field's `json` tag. -/
def QuoteDetail.Encode (d : QuoteDetail) : JsonObject :=
  [("code", d.Code), ("codein", d.CodeIn), ("name", d.Name), ("high", d.High),
   ("low", d.Low), ("varBid", d.VarBid), ("pctChange", d.PctChange), ("bid", d.Bid),
   ("ask", d.Ask), ("timestamp", d.Timestamp), ("create_date", d.CreateDate)]

/-- The value of the member named `key` of a JSON object. -/
def JsonObject.member (o : JsonObject) (key : String) : Option String :=
  (o.find? (fun kv => kv.1 == key)).map Prod.snd

/-- The constant `http.StatusOK`. -/
def StatusOK : Nat := 200

/-- The constant `http.StatusNotFound`. -/
def StatusNotFound : Nat := 404

/-- The constant `http.StatusInternalServerError`. -/
def StatusInternalServerError : Nat := 500

/-- The timeout of `getCurrencyQuote`: `time.Millisecond*200`. -/
def getCurrencyQuoteTimeout : Nat := Millisecond * 200

/-- The timeout of `storeCurrencyQuote`: `time.Millisecond*10`. -/
def storeCurrencyQuoteTimeout : Nat := Millisecond * 10

/-- The worker `getCurrencyQuoteFromRequest(ctx, chn, quote)`; `quote` is the content of
the runner's variable the pointer argument refers to. Each failing step logs and returns;
`json.Unmarshal(body, &quote)` decodes through the pointer (or resets it to nil), and the
final `chn <- *quote` dereferences it. -/
def getCurrencyQuoteFromRequest (env : HttpEnv CurrencyQuote) (quote : CurrencyQuote) :
    Worker CurrencyQuote CurrencyQuote :=
  match env.newRequest with
  | some err => ⟨[LogLine.error "" (some err)], quote, Action.returned⟩
  | none =>
    match env.doRequest with
    | DoResult.failed err _ => ⟨[LogLine.error "" (some err)], quote, Action.returned⟩
    | DoResult.ok =>
      match env.readAll with
      | (_, some err) => ⟨[LogLine.error "" (some err)], quote, Action.returned⟩
      | (body, none) =>
        let u := env.unmarshal body quote
        match u.err with
        | some err => ⟨[LogLine.error "" (some err)], u.ptr.getD quote, Action.returned⟩
        | none =>
          match u.ptr with
          | none => ⟨[], quote, Action.panicked⟩
          | some q => ⟨[], q, Action.sent q⟩

/-- The runner `getCurrencyQuote()`, returning `(*CurrencyQuote, error)`. -/
def getCurrencyQuote (env : HttpEnv CurrencyQuote) (s : Sched) :
    Run CurrencyQuote CurrencyQuote (Option CurrencyQuote × Option GoError) :=
  let ctx := WithTimeout Background s.start getCurrencyQuoteTimeout
  let log0 := [LogLine.info "Requesting currency quote..."]
  let w := getCurrencyQuoteFromRequest env CurrencyQuote.zero
  match selectBranch w.action s with
  | Selected.crash => ⟨log0, ctx, w, Outcome.crashed⟩
  | Selected.recv chnQuote =>
    if chnQuote = w.quote then
      ⟨log0 ++ [LogLine.info "Request completed successfully"], ctx, w,
        Outcome.returned (some w.quote, none)⟩
    else
      ⟨log0, ctx, w, Outcome.returned (none, errAfterRecv s)⟩
  | Selected.done =>
    ⟨log0 ++ [LogLine.error "The request has done" (some GoError.DeadlineExceeded)], ctx, w,
      Outcome.returned (none, some GoError.DeadlineExceeded)⟩

/-- The outside world of the persistence worker, one field per library call:
`os.Stat` reporting `ErrNotExist`, `os.Create`, `sql.Open`, `db.Prepare` and
`statement.Exec` of the `CREATE TABLE`, `db.PrepareContext` and `statement.Exec` of the
`INSERT`. -/
structure StoreEnv where
  statNotExist : Bool
  createFile : Option GoError
  sqlOpen : Option GoError
  prepareCreate : Option GoError
  execCreate : Option GoError
  prepareInsert : Option GoError
  execInsert : Option GoError
deriving DecidableEq, Repr

/-- The function `createSqliteDatabaseFile(filepath)`: creates the file only when `os.Stat`
says it does not exist. Returns the log lines and the error. -/
def createSqliteDatabaseFile (env : StoreEnv) : List LogLine × Option GoError :=
  if env.statNotExist then
    match env.createFile with
    | some err => ([LogLine.info "Creating file..."], some err)
    | none => ([LogLine.info "Creating file...", LogLine.info "The file has been created"], none)
  else ([], none)

/-- The function `createCurrencyQuoteTable(db)`: only the error of `db.Prepare` is
returned; the result of `statement.Exec()` is dropped. -/
def createCurrencyQuoteTable (env : StoreEnv) : List LogLine × Option GoError :=
  match env.prepareCreate with
  | some err => ([LogLine.info "Creating currency quote table if not exists..."], some err)
  | none =>
    ([LogLine.info "Creating currency quote table if not exists...",
      LogLine.info "Currency quote table creation completed"], none)

/-- The function `insertCurrencyQuoteDatabase(ctx, db, quote)`. The arguments of
`statement.Exec` read the fields of `quote`, which panics on a nil pointer. -/
def insertCurrencyQuoteDatabase (env : StoreEnv) (quote : Option CurrencyQuote) :
    Outcome (List LogLine × Option GoError) :=
  match env.prepareInsert with
  | some err => Outcome.returned ([LogLine.info "Inserting currency quote record..."], some err)
  | none =>
    match quote with
    | none => Outcome.crashed
    | some _ =>
      match env.execInsert with
      | some err =>
        Outcome.returned ([LogLine.info "Inserting currency quote record..."], some err)
      | none =>
        Outcome.returned ([LogLine.info "Inserting currency quote record...",
          LogLine.info "Currency record insertion completed"], none)

/-- The worker `storeCurrencyQuoteDatabase(ctx, chn, quote)`; `quote` is the pointer
argument (`none` for nil). It only reads through the pointer. -/
def storeCurrencyQuoteDatabase (env : StoreEnv) (quote : Option CurrencyQuote) :
    Worker (Option CurrencyQuote) CurrencyQuote :=
  match createSqliteDatabaseFile env with
  | (l1, some err) => ⟨l1 ++ [LogLine.error "" (some err)], quote, Action.returned⟩
  | (l1, none) =>
    match env.sqlOpen with
    | some err => ⟨l1 ++ [LogLine.error "" (some err)], quote, Action.returned⟩
    | none =>
      match createCurrencyQuoteTable env with
      | (l2, some err) => ⟨l1 ++ l2 ++ [LogLine.error "" (some err)], quote, Action.returned⟩
      | (l2, none) =>
        match insertCurrencyQuoteDatabase env quote with
        | Outcome.crashed => ⟨l1 ++ l2, quote, Action.panicked⟩
        | Outcome.returned (l3, some err) =>
          ⟨l1 ++ l2 ++ l3 ++ [LogLine.error "" (some err)], quote, Action.returned⟩
        | Outcome.returned (l3, none) =>
          match quote with
          | none => ⟨l1 ++ l2 ++ l3, quote, Action.panicked⟩
          | some q => ⟨l1 ++ l2 ++ l3, quote, Action.sent q⟩

/-- The runner `storeCurrencyQuote(quote)`, returning `error`. -/
def storeCurrencyQuote (quote : Option CurrencyQuote) (env : StoreEnv) (s : Sched) :
    Run (Option CurrencyQuote) CurrencyQuote (Option GoError) :=
  let ctx := WithTimeout Background s.start storeCurrencyQuoteTimeout
  let log0 := [LogLine.info "Storing currency quote in database..."]
  let w := storeCurrencyQuoteDatabase env quote
  match selectBranch w.action s with
  | Selected.crash => ⟨log0, ctx, w, Outcome.crashed⟩
  | Selected.recv chnQuote =>
    match w.quote with
    | none => ⟨log0, ctx, w, Outcome.crashed⟩
    | some q =>
      if chnQuote = q then
        ⟨log0 ++ [LogLine.info "Currency quote stored successfully"], ctx, w,
          Outcome.returned none⟩
      else
        ⟨log0, ctx, w, Outcome.returned (errAfterRecv s)⟩
  | Selected.done =>
    ⟨log0 ++ [LogLine.error "The database persist has done" (some GoError.DeadlineExceeded)],
      ctx, w, Outcome.returned (some GoError.DeadlineExceeded)⟩

/-- An inbound `*http.Request` as far as a handler can look at it. -/
structure Request where
  method : String
  path : String
  body : String
deriving DecidableEq, Repr

/-- The state of an `http.ResponseWriter`: the header map, the status passed to
`WriteHeader` and the JSON documents written to the body. -/
structure ResponseWriter where
  header : List (String × String)
  status : Option Nat
  body : List JsonObject
deriving DecidableEq, Repr

/-- A fresh response writer: nothing set, nothing written. -/
def ResponseWriter.fresh : ResponseWriter := ⟨[], none, []⟩

/-- What the handler does, in program order. -/
inductive Event where
  | getCurrencyQuote
  | storeCurrencyQuote (quote : Option CurrencyQuote)
  | setHeader (key value : String)
  | writeHeader (status : Nat)
  | encode (obj : JsonObject)
deriving DecidableEq, Repr

/-- One run of the handler: its events and, unless the process crashed or the handler
panicked, the response writer as the handler leaves it. -/
structure Handled where
  trace : List Event
  response : Option ResponseWriter
deriving DecidableEq, Repr

/-- The handler `QuoteHandler(w, r)`. `fenv`, `fs` are the world and scheduling of the
fetch stage, `senv`, `ss` those of the persistence stage. -/
def QuoteHandler (r : Request) (fenv : HttpEnv CurrencyQuote) (fs : Sched)
    (senv : StoreEnv) (ss : Sched) : Handled :=
  let w := ResponseWriter.fresh
  if r.path ≠ "/cotacao" then
    ⟨[Event.writeHeader StatusNotFound], some { w with status := some StatusNotFound }⟩
  else
    match (getCurrencyQuote fenv fs).outcome with
    | Outcome.crashed => ⟨[Event.getCurrencyQuote], none⟩
    | Outcome.returned (_, some _) =>
      ⟨[Event.getCurrencyQuote, Event.writeHeader StatusInternalServerError],
        some { w with status := some StatusInternalServerError }⟩
    | Outcome.returned (quote, none) =>
      let st := storeCurrencyQuote quote senv ss
      match st.outcome with
      | Outcome.crashed => ⟨[Event.getCurrencyQuote, Event.storeCurrencyQuote quote], none⟩
      | Outcome.returned (some _) =>
        ⟨[Event.getCurrencyQuote, Event.storeCurrencyQuote quote,
          Event.writeHeader StatusInternalServerError],
          some { w with status := some StatusInternalServerError }⟩
      | Outcome.returned none =>
        match st.worker.quote with
        | none =>
          ⟨[Event.getCurrencyQuote, Event.storeCurrencyQuote quote,
            Event.setHeader "Content-Type" "application/json",
            Event.writeHeader StatusOK], none⟩
        | some q =>
          ⟨[Event.getCurrencyQuote, Event.storeCurrencyQuote quote,
            Event.setHeader "Content-Type" "application/json",
            Event.writeHeader StatusOK, Event.encode q.USDBRL.Encode],
            some ⟨[("Content-Type", "application/json")], some StatusOK, [q.USDBRL.Encode]⟩⟩

end Server

/-! ## The client: `client/main.go` -/

namespace Client

/-- The struct `CurrencyQuote` of the client: only the `bid` member is decoded. -/
structure CurrencyQuote where
  Bid : String
deriving DecidableEq, Repr

/-- The zero value of `CurrencyQuote`, as declared by `var quote CurrencyQuote`. -/
def CurrencyQuote.zero : CurrencyQuote := ⟨""⟩

/-- The timeout of `getDolarQuote`: `time.Millisecond*300`. -/
def getDolarQuoteTimeout : Nat := Millisecond * 300

/-- The line an `if err != nil` block logs. -/
def logIfErr (err : Option GoError) : List LogLine :=
  match err with
  | some e => [LogLine.error "" (some e)]
  | none => []

/-- The worker `getDolarQuoteRequest(ctx, chn, quote)`. Its `if err != nil` blocks log and
fall through: a nil request panics inside `Do`, a nil response panics at `res.Body`, and
after a failed read or a failed parse the worker still reaches `chn <- *quote`. -/
def getDolarQuoteRequest (env : HttpEnv CurrencyQuote) (quote : CurrencyQuote) :
    Worker CurrencyQuote CurrencyQuote :=
  match env.newRequest with
  | some err => ⟨[LogLine.error "" (some err)], quote, Action.panicked⟩
  | none =>
    match env.doRequest with
    | DoResult.failed err false => ⟨[LogLine.error "" (some err)], quote, Action.panicked⟩
    | res =>
      let l2 := match res with
        | DoResult.failed err _ => [LogLine.error "" (some err)]
        | DoResult.ok => []
      let l3 := logIfErr env.readAll.2
      let u := env.unmarshal env.readAll.1 quote
      let l4 := logIfErr u.err
      match u.ptr with
      | none => ⟨l2 ++ l3 ++ l4, quote, Action.panicked⟩
      | some q => ⟨l2 ++ l3 ++ l4, q, Action.sent q⟩

/-- The runner `getDolarQuote()`, returning `(*CurrencyQuote, error)`. -/
def getDolarQuote (env : HttpEnv CurrencyQuote) (s : Sched) :
    Run CurrencyQuote CurrencyQuote (Option CurrencyQuote × Option GoError) :=
  let ctx := WithTimeout Background s.start getDolarQuoteTimeout
  let log0 := [LogLine.info "Requesting currency quote..."]
  let w := getDolarQuoteRequest env CurrencyQuote.zero
  match selectBranch w.action s with
  | Selected.crash => ⟨log0, ctx, w, Outcome.crashed⟩
  | Selected.recv chnQuote =>
    if chnQuote = w.quote then
      ⟨log0 ++ [LogLine.info "Request completed successfully"], ctx, w,
        Outcome.returned (some w.quote, none)⟩
    else
      ⟨log0, ctx, w, Outcome.returned (none, errAfterRecv s)⟩
  | Selected.done =>
    ⟨log0 ++ [LogLine.error "The request has done" (some GoError.DeadlineExceeded)], ctx, w,
      Outcome.returned (none, some GoError.DeadlineExceeded)⟩

/-- The outside world of `storeQuoteFile`: the error of `os.Create`, and for a failing
`file.Write` its error with the number of characters that still reached the file. -/
structure FileEnv where
  create : Option GoError
  write : Option (GoError × Nat)
deriving DecidableEq, Repr

/-- The files of the working directory: the content under each name, `none` where no
file of that name exists. -/
abbrev Files := String → Option String

/-- The directory after the file `name` got the content `text`. -/
def Files.put (files : Files) (name text : String) : Files :=
  fun n => if n = name then some text else files n

/-- A run of `storeQuoteFile`: its log, the files afterwards and the returned error. -/
structure Stored where
  log : List LogLine
  files : Files
  outcome : Outcome (Option GoError)

/-- The function `storeQuoteFile(quote)`; `files` is the working directory before the call.
`os.Create("cotacao.txt")` creates the file or truncates it,
`fmt.Sprintf("Dólar: %v", quote.Bid)` is written to it. -/
def storeQuoteFile (quote : Option CurrencyQuote) (env : FileEnv) (files : Files) : Stored :=
  let log0 := LogLine.info "Storing currency quote in file..."
  match env.create with
  | some err => ⟨[log0, LogLine.error "" (some err)], files, Outcome.returned (some err)⟩
  | none =>
    match quote with
    | none => ⟨[log0], files.put "cotacao.txt" "", Outcome.crashed⟩
    | some q =>
      let text := "Dólar: " ++ q.Bid
      match env.write with
      | some (err, n) =>
        ⟨[log0, LogLine.error "" (some err)], files.put "cotacao.txt" (text.take n),
          Outcome.returned (some err)⟩
      | none =>
        ⟨[log0, LogLine.info "Currency quote storage completed"],
          files.put "cotacao.txt" text, Outcome.returned none⟩

/-- The calls `main` makes, in program order. -/
inductive Call where
  | getDolarQuote
  | storeQuoteFile (quote : Option CurrencyQuote)
deriving DecidableEq, Repr

/-- How the process ends: `main` returns, or a panic ends it. -/
inductive Exit where
  | normal
  | abnormal
deriving DecidableEq, Repr

/-- One run of the client process: the calls of `main`, the files afterwards and how the
process ended. -/
structure Process where
  calls : List Call
  files : Files
  exit : Exit

/-- The function `main()` of the client; `files` is the working directory before the
run. -/
def main (env : HttpEnv CurrencyQuote) (s : Sched) (fenv : FileEnv) (files : Files) :
    Process :=
  match (getDolarQuote env s).outcome with
  | Outcome.crashed => ⟨[Call.getDolarQuote], files, Exit.abnormal⟩
  | Outcome.returned (_, some _) => ⟨[Call.getDolarQuote], files, Exit.abnormal⟩
  | Outcome.returned (quote, none) =>
    let st := storeQuoteFile quote fenv files
    match st.outcome with
    | Outcome.crashed =>
      ⟨[Call.getDolarQuote, Call.storeQuoteFile quote], st.files, Exit.abnormal⟩
    | Outcome.returned (some _) =>
      ⟨[Call.getDolarQuote, Call.storeQuoteFile quote], st.files, Exit.abnormal⟩
    | Outcome.returned none =>
      ⟨[Call.getDolarQuote, Call.storeQuoteFile quote], st.files, Exit.normal⟩

end Client

/-! ## The handoff between worker and runner, as a transition system

Every runner creates its channel with `make(chan CurrencyQuote)`: no buffer. The worker
delivers with a plain `chn <- *quote`, the runner receives inside its `select`. -/

namespace Handoff

/-- Where the runner goroutine is: blocked in its `select`, or back in its caller with the
value it received, if any. -/
inductive Waiter (α : Type) where
  | selecting
  | left (got : Option α)
deriving DecidableEq, Repr

/-- Where the worker goroutine is: doing its unit of work (which will produce `result`,
`none` for a failure), at the send `chn <- v`, or terminated. -/
inductive Sender (α : Type) where
  | working (result : Option α)
  | sending (v : α)
  | finished
deriving DecidableEq, Repr

/-- One bounded operation in flight: the capacity and buffer of the channel, whether the
deadline has fired (`ctx.Done()` is closed), and the two goroutines. -/
structure State (α : Type) where
  cap : Nat
  buf : List α
  expired : Bool
  waiter : Waiter α
  worker : Sender α
deriving DecidableEq, Repr

/-- The capacity of the channel the runners create: `make(chan CurrencyQuote)`. -/
def chanCap : Nat := 0

/-- The state right after `go worker(ctx, chn, ...)`. -/
def start {α : Type} (result : Option α) : State α :=
  ⟨chanCap, [], false, Waiter.selecting, Sender.working result⟩

/-- The deadline fires. -/
def fire {α : Type} (s : State α) : List (State α) :=
  if s.expired then [] else [{ s with expired := true }]

/-- The worker ends its unit of work: it moves to the send, or returns on a failure. -/
def finishWork {α : Type} (s : State α) : List (State α) :=
  match s.worker with
  | Sender.working (some v) => [{ s with worker := Sender.sending v }]
  | Sender.working none => [{ s with worker := Sender.finished }]
  | _ => []

/-- A send and the receive of the `select` meet on the channel: the value goes straight
from the worker to the runner. -/
def rendezvous {α : Type} (s : State α) : List (State α) :=
  match s.waiter, s.worker, s.buf with
  | Waiter.selecting, Sender.sending v, [] =>
    [{ s with waiter := Waiter.left (some v), worker := Sender.finished }]
  | _, _, _ => []

/-- A send into free buffer space completes without a receiver. -/
def bufferedSend {α : Type} (s : State α) : List (State α) :=
  match s.worker with
  | Sender.sending v =>
    if s.buf.length < s.cap then [{ s with buf := s.buf ++ [v], worker := Sender.finished }]
    else []
  | _ => []

/-- The `select` receives a buffered value. -/
def bufferedRecv {α : Type} (s : State α) : List (State α) :=
  match s.waiter, s.buf with
  | Waiter.selecting, v :: rest => [{ s with buf := rest, waiter := Waiter.left (some v) }]
  | _, _ => []

/-- The `select` takes `<-ctx.Done()`. -/
def timeout {α : Type} (s : State α) : List (State α) :=
  match s.waiter with
  | Waiter.selecting => if s.expired then [{ s with waiter := Waiter.left none }] else []
  | _ => []

/-- All states one step away. -/
def next {α : Type} (s : State α) : List (State α) :=
  fire s ++ finishWork s ++ rendezvous s ++ bufferedSend s ++ bufferedRecv s ++ timeout s

/-- One step of the system. -/
def Step {α : Type} (s t : State α) : Prop := t ∈ next s

/-- The system can get from `s` to `t`. -/
def Reaches {α : Type} (s t : State α) : Prop := Relation.ReflTransGen Step s t

/-- The deadline has won and the runner is gone, and the worker now stands at its send. -/
def abandoned {α : Type} (v : α) : State α :=
  ⟨chanCap, [], true, Waiter.left none, Sender.sending v⟩

/-- The states a bounded operation whose work produces `v` can be in: before and after the
deadline fires, with the runner still in its `select` and the worker at work or at its send;
with the value handed over; or with the runner gone through `Done` and the worker at work or
at its send. -/
def statesOfSuccess {α : Type} (v : α) : List (State α) :=
  [⟨chanCap, [], false, Waiter.selecting, Sender.working (some v)⟩,
   ⟨chanCap, [], true, Waiter.selecting, Sender.working (some v)⟩,
   ⟨chanCap, [], false, Waiter.selecting, Sender.sending v⟩,
   ⟨chanCap, [], true, Waiter.selecting, Sender.sending v⟩,
   ⟨chanCap, [], false, Waiter.left (some v), Sender.finished⟩,
   ⟨chanCap, [], true, Waiter.left (some v), Sender.finished⟩,
   ⟨chanCap, [], true, Waiter.left none, Sender.working (some v)⟩,
   ⟨chanCap, [], true, Waiter.left none, Sender.sending v⟩]

/-- The states a bounded operation whose work fails can be in. -/
def statesOfFailure {α : Type} : List (State α) :=
  [⟨chanCap, [], false, Waiter.selecting, Sender.working none⟩,
   ⟨chanCap, [], true, Waiter.selecting, Sender.working none⟩,
   ⟨chanCap, [], false, Waiter.selecting, Sender.finished⟩,
   ⟨chanCap, [], true, Waiter.selecting, Sender.finished⟩,
   ⟨chanCap, [], true, Waiter.left none, Sender.working none⟩,
   ⟨chanCap, [], true, Waiter.left none, Sender.finished⟩]

/-- The states in which the runner is gone through `Done` while the work produces `v`. -/
def statesOfLeak {α : Type} (v : α) : List (State α) :=
  [⟨chanCap, [], true, Waiter.left none, Sender.working (some v)⟩,
   ⟨chanCap, [], true, Waiter.left none, Sender.sending v⟩]

end Handoff

/-! ## Concrete worlds used to exercise the definitions -/

namespace Sample

/-- A quotation as the upstream provider sends it, with bid 5.25. -/
def detail : Server.QuoteDetail :=
  ⟨"USD", "BRL", "Dólar Americano/Real Brasileiro", "5.30", "5.20", "0.01", "0.19", "5.25",
    "5.26", "1700000000", "2023-11-14 19:13:20"⟩

/-- The server-side quote holding `detail`. -/
def quote : Server.CurrencyQuote := ⟨detail⟩

/-- An upstream that answers in time with a body that decodes to `quote`. -/
def upstreamOk : HttpEnv Server.CurrencyQuote :=
  ⟨none, DoResult.ok, ("body", none), fun _ _ => ⟨some quote, none⟩⟩

/-- An upstream whose call fails. -/
def upstreamDown : HttpEnv Server.CurrencyQuote :=
  ⟨none, DoResult.failed (GoError.other "dial tcp: i/o timeout") false, ("", none),
    fun _ q => ⟨some q, none⟩⟩

/-- A storage where every step succeeds and the database file already exists. -/
def storageOk : Server.StoreEnv := ⟨false, none, none, none, none, none, none⟩

/-- A storage whose path cannot be written: the database file cannot be created. -/
def storageUnwritable : Server.StoreEnv :=
  ⟨true, some (GoError.other "open ./database.db: permission denied"), none, none, none,
    none, none⟩

/-- A storage where executing the `CREATE TABLE` statement fails and every other step
succeeds. -/
def storageExecFails : Server.StoreEnv :=
  ⟨false, none, none, none, some (GoError.other "database is locked"), none, none⟩

/-- The worker reaches its last action before the deadline. -/
def workerFirst : Sched := ⟨0, false, false⟩

/-- The deadline fires before the worker reaches its last action. -/
def deadlineFirst : Sched := ⟨0, true, true⟩

/-- A request for the one route. -/
def cotacao : Server.Request := ⟨"GET", "/cotacao", ""⟩

/-- A request for another path. -/
def other : Server.Request := ⟨"POST", "/other", "x"⟩

/-- An inner service that answers in time with a body that decodes to bid 5.25. -/
def innerOk : HttpEnv Client.CurrencyQuote :=
  ⟨none, DoResult.ok, ("body", none), fun _ _ => ⟨some ⟨"5.25"⟩, none⟩⟩

/-- An inner service that replies with status 500 and an empty body: the call and the read
succeed, parsing the empty body fails and leaves the target as it was. -/
def inner500 : HttpEnv Client.CurrencyQuote :=
  ⟨none, DoResult.ok, ("", none),
    fun _ q => ⟨some q, some (GoError.other "unexpected end of JSON input")⟩⟩

/-- An inner service whose body is not JSON. -/
def innerMalformed : HttpEnv Client.CurrencyQuote :=
  ⟨none, DoResult.ok, ("<html>", none),
    fun _ q => ⟨some q, some (GoError.other "invalid character looking for beginning of value")⟩⟩

/-- No inner service is listening: the call fails with a nil response. -/
def innerDown : HttpEnv Client.CurrencyQuote :=
  ⟨none, DoResult.failed (GoError.other "connect: connection refused") false, ("", none),
    fun _ q => ⟨some q, none⟩⟩

/-- An empty working directory. -/
def noFiles : Client.Files := fun _ => none

/-- A working directory that holds the sink file of an earlier run and another file. -/
def oldFiles : Client.Files :=
  fun n => if n = "cotacao.txt" then some "Dólar: 4.99" else
    if n = "notes.txt" then some "keep" else none

/-- A file system where creating and writing the sink file succeed. -/
def diskOk : Client.FileEnv := ⟨none, none⟩

/-- A file system where the sink file cannot be created. -/
def diskReadOnly : Client.FileEnv := ⟨some (GoError.other "read-only file system"), none⟩

/-- A file system where the write fails after four characters. -/
def diskFull : Client.FileEnv := ⟨none, some (GoError.other "no space left on device", 4)⟩

end Sample

/-! ## Theorems: the race -/

/-- The `select` receives `v` exactly when the worker sends `v` and the deadline does not
come first. -/
theorem selectBranch_recv {α : Type} (a : Action α) (s : Sched) (v : α) :
    selectBranch a s = Selected.recv v ↔ a = Action.sent v ∧ s.deadlineFirst = false := by
  cases a <;> cases hd : s.deadlineFirst <;> simp [selectBranch, hd]

/-- The process crashes inside the `select` exactly when the worker panics and the deadline
does not come first. -/
theorem selectBranch_crash {α : Type} (a : Action α) (s : Sched) :
    selectBranch a s = (Selected.crash : Selected α) ↔
      a = Action.panicked ∧ s.deadlineFirst = false := by
  cases a <;> cases hd : s.deadlineFirst <;> simp [selectBranch, hd]

/-! ## Theorems: the server -/

namespace Server

/-- The fetch worker sends only after every step succeeded, and what it sends is the
content of the runner variable, decoded from the body it read. -/
theorem getCurrencyQuoteFromRequest_sent (env : HttpEnv CurrencyQuote) (q0 v : CurrencyQuote)
    (h : (getCurrencyQuoteFromRequest env q0).action = Action.sent v) :
    (getCurrencyQuoteFromRequest env q0).quote = v ∧
      env.newRequest = none ∧ env.doRequest = DoResult.ok ∧ env.readAll.2 = none ∧
      env.unmarshal env.readAll.1 q0 = ⟨some v, none⟩ := by
  obtain ⟨nr, dr, ⟨body, re⟩, um⟩ := env
  cases nr <;> cases dr <;> cases re <;> simp [getCurrencyQuoteFromRequest] at h ⊢
  rcases hu : um body q0 with ⟨ptr, err⟩
  rw [hu] at h
  cases err <;> cases ptr <;> simp at h ⊢
  exact h

/-- What the persistence worker leaves behind its pointer is what it was given: it only
reads the quote. -/
theorem storeCurrencyQuoteDatabase_quote (env : StoreEnv) (quote : Option CurrencyQuote) :
    (storeCurrencyQuoteDatabase env quote).quote = quote := by
  unfold storeCurrencyQuoteDatabase
  repeat (first | rfl | split)

/-- The persistence worker sends exactly the quote it was given. -/
theorem storeCurrencyQuoteDatabase_sent (env : StoreEnv) (quote : Option CurrencyQuote)
    (v : CurrencyQuote) (h : (storeCurrencyQuoteDatabase env quote).action = Action.sent v) :
    quote = some v := by
  unfold storeCurrencyQuoteDatabase at h
  repeat' split at h
  all_goals simp_all

/-- The fetch runner returns a quote with a nil error, or no quote with the deadline error;
when it returns a quote, the worker decoded it from the body it read. -/
theorem getCurrencyQuote_returned (env : HttpEnv CurrencyQuote) (s : Sched)
    (v : Option CurrencyQuote) (e : Option GoError)
    (h : (getCurrencyQuote env s).outcome = Outcome.returned (v, e)) :
    (e = none ∧ ∃ q, v = some q ∧
        (env.unmarshal env.readAll.1 CurrencyQuote.zero).ptr = some q) ∨
      (v = none ∧ e = some GoError.DeadlineExceeded) := by
  unfold getCurrencyQuote at h
  cases hsel : selectBranch (getCurrencyQuoteFromRequest env CurrencyQuote.zero).action s with
  | crash => simp [hsel] at h
  | done =>
    simp [hsel] at h
    exact Or.inr ⟨h.1.symm, h.2.symm⟩
  | recv c =>
    have hs := (selectBranch_recv _ s c).1 hsel
    have hw := getCurrencyQuoteFromRequest_sent env CurrencyQuote.zero c hs.1
    simp [hsel, hw.1] at h
    refine Or.inl ⟨h.2.symm, c, h.1.symm, ?_⟩
    rw [hw.2.2.2.2]

/-- The worker a persistence runner starts is the persistence worker on the same quote. -/
theorem storeCurrencyQuote_worker (quote : Option CurrencyQuote) (env : StoreEnv) (s : Sched) :
    (storeCurrencyQuote quote env s).worker = storeCurrencyQuoteDatabase env quote := by
  simp only [storeCurrencyQuote]
  repeat (first | rfl | split)

/-- The persistence runner returns nil or the deadline error, and nil only after the
worker delivered. -/
theorem storeCurrencyQuote_returned (quote : Option CurrencyQuote) (env : StoreEnv) (s : Sched)
    (e : Option GoError) (h : (storeCurrencyQuote quote env s).outcome = Outcome.returned e) :
    (e = none ∧ ∃ q, quote = some q ∧
        selectBranch (storeCurrencyQuoteDatabase env quote).action s = Selected.recv q) ∨
      (e = some GoError.DeadlineExceeded ∧
        selectBranch (storeCurrencyQuoteDatabase env quote).action s = Selected.done) := by
  unfold storeCurrencyQuote at h
  cases hsel : selectBranch (storeCurrencyQuoteDatabase env quote).action s with
  | crash => simp [hsel] at h
  | done =>
    simp [hsel] at h
    exact Or.inr ⟨h.symm, rfl⟩
  | recv c =>
    have hs := (selectBranch_recv _ s c).1 hsel
    have hq := storeCurrencyQuoteDatabase_sent env quote c hs.1
    subst hq
    simp [hsel, storeCurrencyQuoteDatabase_quote] at h
    exact Or.inl ⟨h.symm, c, rfl, rfl⟩

/-- The fetch worker logs and returns without sending as soon as one step fails. -/
theorem getCurrencyQuoteFromRequest_failed (env : HttpEnv CurrencyQuote) (q0 : CurrencyQuote)
    (h : env.newRequest ≠ none ∨ env.doRequest ≠ DoResult.ok ∨ env.readAll.2 ≠ none ∨
      (env.unmarshal env.readAll.1 q0).err ≠ none) :
    (getCurrencyQuoteFromRequest env q0).action = Action.returned ∧
      ∃ e, (getCurrencyQuoteFromRequest env q0).log = [LogLine.error "" (some e)] := by
  obtain ⟨nr, dr, ⟨body, re⟩, um⟩ := env
  cases nr <;> cases dr <;> cases re <;> simp [getCurrencyQuoteFromRequest] at h ⊢
  cases he : (um body q0).err <;> simp [he] at h ⊢

/-- The persistence worker sends only after every step whose error it looks at succeeded. -/
theorem storeCurrencyQuoteDatabase_sent_steps (env : StoreEnv) (quote : Option CurrencyQuote)
    (v : CurrencyQuote) (h : (storeCurrencyQuoteDatabase env quote).action = Action.sent v) :
    (env.statNotExist = true → env.createFile = none) ∧ env.sqlOpen = none ∧
      env.prepareCreate = none ∧ env.prepareInsert = none ∧ env.execInsert = none := by
  obtain ⟨st, cf, so, pc, ec, pi, ei⟩ := env
  cases st <;> cases cf <;> cases so <;> cases pc <;> cases pi <;> cases ei <;>
    cases quote <;>
    simp [storeCurrencyQuoteDatabase, createSqliteDatabaseFile, createCurrencyQuoteTable,
      insertCurrencyQuoteDatabase] at h ⊢

/-- The persistence worker never looks at the result of executing the `CREATE TABLE`
statement: with that step failing it still delivers when the other steps succeed. -/
theorem storeCurrencyQuoteDatabase_execCreate_dropped (env : StoreEnv)
    (quote : Option CurrencyQuote) (e : Option GoError) :
    (storeCurrencyQuoteDatabase { env with execCreate := e } quote).action =
        (storeCurrencyQuoteDatabase env quote).action ∧
      (storeCurrencyQuoteDatabase Sample.storageExecFails (some Sample.quote)).action =
        Action.sent Sample.quote := by
  constructor
  · rfl
  · decide

/-- The fetch runner yields nothing exactly when its worker panics before the deadline,
which takes a body that decodes without error to a nil pointer. -/
theorem getCurrencyQuote_crashed (env : HttpEnv CurrencyQuote) (s : Sched) :
    (getCurrencyQuote env s).outcome = Outcome.crashed ↔
      (getCurrencyQuoteFromRequest env CurrencyQuote.zero).action = Action.panicked ∧
        s.deadlineFirst = false := by
  rw [← selectBranch_crash]
  unfold getCurrencyQuote
  cases hsel : selectBranch (getCurrencyQuoteFromRequest env CurrencyQuote.zero).action s with
  | crash => simp [hsel]
  | done => simp [hsel]
  | recv c =>
    simp only [hsel]
    split <;> simp

/-- The persistence runner always returns when it is given a quote. -/
theorem storeCurrencyQuote_some_returns (q : CurrencyQuote) (env : StoreEnv) (s : Sched) :
    (storeCurrencyQuote (some q) env s).outcome ≠ Outcome.crashed := by
  obtain ⟨st, cf, so, pc, ec, pi, ei⟩ := env
  obtain ⟨t, d, x⟩ := s
  cases st <;> cases cf <;> cases so <;> cases pc <;> cases pi <;> cases ei <;> cases d <;>
    simp [storeCurrencyQuote, storeCurrencyQuoteDatabase, createSqliteDatabaseFile,
      createCurrencyQuoteTable, insertCurrencyQuoteDatabase, selectBranch]

/-- The handler never calls storeCurrencyQuote with a nil quote. -/
theorem QuoteHandler_store_not_nil (r : Request) (fenv : HttpEnv CurrencyQuote) (fs : Sched)
    (senv : StoreEnv) (ss : Sched) :
    Event.storeCurrencyQuote none ∉ (QuoteHandler r fenv fs senv ss).trace := by
  unfold QuoteHandler
  by_cases hp : r.path = "/cotacao"
  · simp only [hp]
    cases hf : (getCurrencyQuote fenv fs).outcome with
    | crashed => simp
    | returned p =>
      obtain ⟨v, e⟩ := p
      rcases getCurrencyQuote_returned fenv fs v e hf with ⟨he, q, hv, _⟩ | ⟨hv, he⟩
      · subst he hv
        simp only [ne_eq, not_true_eq_false, ↓reduceIte]
        repeat' split
        all_goals simp
      · subst he
        simp
  · simp [hp]

/-- C1. A request for "/cotacao" whose fetch returns the quote q with a nil error and whose
persistence returns nil: the handler calls getCurrencyQuote, then storeCurrencyQuote on q,
then sets the content type, writes status 200 and encodes q.USDBRL, in this order; the
response has status 200 and its body is the encoding of the inner QuoteDetail alone;
persistence leaves q as it was; q is what the upstream body decoded to, and the "bid"
member of the body is its bid string. -/
theorem QuoteHandler_success (r : Request) (fenv : HttpEnv CurrencyQuote) (fs : Sched)
    (senv : StoreEnv) (ss : Sched) (q : CurrencyQuote)
    (hpath : r.path = "/cotacao")
    (hfetch : (getCurrencyQuote fenv fs).outcome = Outcome.returned (some q, none))
    (hstore : (storeCurrencyQuote (some q) senv ss).outcome = Outcome.returned none) :
    QuoteHandler r fenv fs senv ss =
        ⟨[Event.getCurrencyQuote, Event.storeCurrencyQuote (some q),
          Event.setHeader "Content-Type" "application/json", Event.writeHeader 200,
          Event.encode q.USDBRL.Encode],
         some ⟨[("Content-Type", "application/json")], some 200, [q.USDBRL.Encode]⟩⟩ ∧
      (storeCurrencyQuote (some q) senv ss).worker.quote = some q ∧
      (fenv.unmarshal fenv.readAll.1 CurrencyQuote.zero).ptr = some q ∧
      JsonObject.member q.USDBRL.Encode "bid" = some q.USDBRL.Bid := by
  have hq : (storeCurrencyQuote (some q) senv ss).worker.quote = some q := by
    rw [storeCurrencyQuote_worker, storeCurrencyQuoteDatabase_quote]
  refine ⟨?_, hq, ?_, ?_⟩
  · simp [QuoteHandler, hpath, hfetch, hstore, hq, StatusOK]
  · rcases getCurrencyQuote_returned fenv fs _ _ hfetch with ⟨_, q1, h1, h2⟩ | ⟨h1, _⟩
    · cases h1
      exact h2
    · cases h1
  · simp [QuoteDetail.Encode, JsonObject.member, List.find?]

/-- C2. A request for "/cotacao" whose fetch returns a non-nil error: the handler calls
getCurrencyQuote and writes status 500, nothing else; the body stays empty and
storeCurrencyQuote is not called. -/
theorem QuoteHandler_fetch_failed (r : Request) (fenv : HttpEnv CurrencyQuote) (fs : Sched)
    (senv : StoreEnv) (ss : Sched) (v : Option CurrencyQuote) (e : GoError)
    (hpath : r.path = "/cotacao")
    (hfetch : (getCurrencyQuote fenv fs).outcome = Outcome.returned (v, some e)) :
    QuoteHandler r fenv fs senv ss =
        ⟨[Event.getCurrencyQuote, Event.writeHeader 500], some ⟨[], some 500, []⟩⟩ ∧
      ∀ quote, Event.storeCurrencyQuote quote ∉ (QuoteHandler r fenv fs senv ss).trace := by
  have h : QuoteHandler r fenv fs senv ss =
      ⟨[Event.getCurrencyQuote, Event.writeHeader 500], some ⟨[], some 500, []⟩⟩ := by
    simp [QuoteHandler, hpath, hfetch, StatusInternalServerError, ResponseWriter.fresh]
  refine ⟨h, ?_⟩
  intro quote
  rw [h]
  simp

/-- C3. A request for "/cotacao" whose fetch returned the quote q and whose persistence
returns a non-nil error: the handler writes status 500 and nothing else; the header map and
the body stay empty, so nothing of q reaches the response. -/
theorem QuoteHandler_store_failed (r : Request) (fenv : HttpEnv CurrencyQuote) (fs : Sched)
    (senv : StoreEnv) (ss : Sched) (q : CurrencyQuote) (e : GoError)
    (hpath : r.path = "/cotacao")
    (hfetch : (getCurrencyQuote fenv fs).outcome = Outcome.returned (some q, none))
    (hstore : (storeCurrencyQuote (some q) senv ss).outcome = Outcome.returned (some e)) :
    QuoteHandler r fenv fs senv ss =
        ⟨[Event.getCurrencyQuote, Event.storeCurrencyQuote (some q), Event.writeHeader 500],
         some ⟨[], some 500, []⟩⟩ ∧
      ∀ obj, Event.encode obj ∉ (QuoteHandler r fenv fs senv ss).trace := by
  have h : QuoteHandler r fenv fs senv ss =
      ⟨[Event.getCurrencyQuote, Event.storeCurrencyQuote (some q), Event.writeHeader 500],
       some ⟨[], some 500, []⟩⟩ := by
    simp [QuoteHandler, hpath, hfetch, hstore, StatusInternalServerError, ResponseWriter.fresh]
  refine ⟨h, ?_⟩
  intro obj
  rw [h]
  simp

/-- C6. A request whose path is not exactly "/cotacao", whatever its method and body: the
handler writes status 404 and nothing else; it calls neither getCurrencyQuote nor
storeCurrencyQuote, and the result does not depend on the upstream, the storage or the
scheduling. -/
theorem QuoteHandler_not_found (r : Request) (fenv : HttpEnv CurrencyQuote) (fs : Sched)
    (senv : StoreEnv) (ss : Sched) (hpath : r.path ≠ "/cotacao") :
    QuoteHandler r fenv fs senv ss =
        ⟨[Event.writeHeader 404], some ⟨[], some 404, []⟩⟩ ∧
      Event.getCurrencyQuote ∉ (QuoteHandler r fenv fs senv ss).trace ∧
      ∀ quote, Event.storeCurrencyQuote quote ∉ (QuoteHandler r fenv fs senv ss).trace := by
  have h : QuoteHandler r fenv fs senv ss =
      ⟨[Event.writeHeader 404], some ⟨[], some 404, []⟩⟩ := by
    simp [QuoteHandler, hpath, StatusNotFound, ResponseWriter.fresh]
  refine ⟨h, ?_, ?_⟩
  · rw [h]
    simp
  · intro quote
    rw [h]
    simp

/-- Witness of C1: the upstream answers in time with bid 5.25 and persistence succeeds in
time; the reply is 200 and its body carries bid 5.25. -/
theorem QuoteHandler_success_witness :
    Sample.cotacao.path = "/cotacao" ∧
      (getCurrencyQuote Sample.upstreamOk Sample.workerFirst).outcome =
        Outcome.returned (some Sample.quote, none) ∧
      (storeCurrencyQuote (some Sample.quote) Sample.storageOk Sample.workerFirst).outcome =
        Outcome.returned none ∧
      (QuoteHandler Sample.cotacao Sample.upstreamOk Sample.workerFirst Sample.storageOk
          Sample.workerFirst).response =
        some ⟨[("Content-Type", "application/json")], some 200, [Sample.detail.Encode]⟩ ∧
      JsonObject.member Sample.detail.Encode "bid" = some "5.25" :=
  have h := QuoteHandler_success Sample.cotacao Sample.upstreamOk Sample.workerFirst
    Sample.storageOk Sample.workerFirst Sample.quote (by decide) (by decide) (by decide)
  ⟨by decide, by decide, by decide, by rw [h.1]; rfl, h.2.2.2⟩

/-- Witness of C2: the upstream call fails, the fetch ends with the deadline error, the
reply is 500 with an empty body. -/
theorem QuoteHandler_fetch_failed_witness :
    Sample.cotacao.path = "/cotacao" ∧
      (getCurrencyQuote Sample.upstreamDown Sample.workerFirst).outcome =
        Outcome.returned (none, some GoError.DeadlineExceeded) ∧
      QuoteHandler Sample.cotacao Sample.upstreamDown Sample.workerFirst Sample.storageOk
          Sample.workerFirst =
        ⟨[Event.getCurrencyQuote, Event.writeHeader 500], some ⟨[], some 500, []⟩⟩ :=
  ⟨by decide, by decide,
    (QuoteHandler_fetch_failed Sample.cotacao Sample.upstreamDown Sample.workerFirst
      Sample.storageOk Sample.workerFirst none GoError.DeadlineExceeded (by decide)
      (by decide)).1⟩

/-- Witness of C3: the quote is fetched but the database file cannot be created; the reply
is 500 with an empty body. -/
theorem QuoteHandler_store_failed_witness :
    (getCurrencyQuote Sample.upstreamOk Sample.workerFirst).outcome =
        Outcome.returned (some Sample.quote, none) ∧
      (storeCurrencyQuote (some Sample.quote) Sample.storageUnwritable
          Sample.workerFirst).outcome = Outcome.returned (some GoError.DeadlineExceeded) ∧
      QuoteHandler Sample.cotacao Sample.upstreamOk Sample.workerFirst Sample.storageUnwritable
          Sample.workerFirst =
        ⟨[Event.getCurrencyQuote, Event.storeCurrencyQuote (some Sample.quote),
          Event.writeHeader 500], some ⟨[], some 500, []⟩⟩ :=
  ⟨by decide, by decide,
    (QuoteHandler_store_failed Sample.cotacao Sample.upstreamOk Sample.workerFirst
      Sample.storageUnwritable Sample.workerFirst Sample.quote GoError.DeadlineExceeded
      (by decide) (by decide) (by decide)).1⟩

/-- Witness of C6: a POST to "/other" with a body gets 404 and nothing else happens. -/
theorem QuoteHandler_not_found_witness :
    Sample.other.path ≠ "/cotacao" ∧
      QuoteHandler Sample.other Sample.upstreamOk Sample.workerFirst Sample.storageOk
          Sample.workerFirst =
        ⟨[Event.writeHeader 404], some ⟨[], some 404, []⟩⟩ :=
  ⟨by decide,
    (QuoteHandler_not_found Sample.other Sample.upstreamOk Sample.workerFirst Sample.storageOk
      Sample.workerFirst (by decide)).1⟩

end Server

/-! ## Theorems: the client -/

namespace Client

/-- The client worker never returns without sending: it ends at its send or in a panic. -/
theorem getDolarQuoteRequest_never_returns (env : HttpEnv CurrencyQuote) (q0 : CurrencyQuote) :
    (getDolarQuoteRequest env q0).action ≠ Action.returned := by
  obtain ⟨nr, dr, ra, um⟩ := env
  cases nr <;> cases dr <;> simp [getDolarQuoteRequest]
  · cases (um ra.1 q0).ptr <;> simp
  · rename_i err wr
    cases wr <;> simp
    cases (um ra.1 q0).ptr <;> simp

/-- What the client worker sends is the content of the runner variable. -/
theorem getDolarQuoteRequest_sent (env : HttpEnv CurrencyQuote) (q0 v : CurrencyQuote)
    (h : (getDolarQuoteRequest env q0).action = Action.sent v) :
    (getDolarQuoteRequest env q0).quote = v := by
  obtain ⟨nr, dr, ra, um⟩ := env
  cases nr <;> cases dr <;> simp [getDolarQuoteRequest] at h ⊢
  · cases hp : (um ra.1 q0).ptr <;> simp [hp] at h ⊢
    exact h
  · rename_i err wr
    cases wr <;> simp at h ⊢
    cases hp : (um ra.1 q0).ptr <;> simp [hp] at h ⊢
    exact h

/-- The client runner returns a quote with a nil error, or no quote with the deadline
error. -/
theorem getDolarQuote_returned (env : HttpEnv CurrencyQuote) (s : Sched)
    (v : Option CurrencyQuote) (e : Option GoError)
    (h : (getDolarQuote env s).outcome = Outcome.returned (v, e)) :
    (e = none ∧ ∃ q, v = some q ∧
        selectBranch (getDolarQuoteRequest env CurrencyQuote.zero).action s = Selected.recv q) ∨
      (v = none ∧ e = some GoError.DeadlineExceeded ∧
        selectBranch (getDolarQuoteRequest env CurrencyQuote.zero).action s = Selected.done) := by
  unfold getDolarQuote at h
  cases hsel : selectBranch (getDolarQuoteRequest env CurrencyQuote.zero).action s with
  | crash => simp [hsel] at h
  | done =>
    simp [hsel] at h
    exact Or.inr ⟨h.1.symm, h.2.symm, rfl⟩
  | recv c =>
    have hs := (selectBranch_recv _ s c).1 hsel
    have hw := getDolarQuoteRequest_sent env CurrencyQuote.zero c hs.1
    simp [hsel, hw] at h
    exact Or.inl ⟨h.2.symm, c, h.1.symm, rfl⟩

/-- The client runner yields nothing exactly when its worker panics before the deadline. -/
theorem getDolarQuote_crashed (env : HttpEnv CurrencyQuote) (s : Sched) :
    (getDolarQuote env s).outcome = Outcome.crashed ↔
      (getDolarQuoteRequest env CurrencyQuote.zero).action = Action.panicked ∧
        s.deadlineFirst = false := by
  rw [← selectBranch_crash]
  unfold getDolarQuote
  cases hsel : selectBranch (getDolarQuoteRequest env CurrencyQuote.zero).action s with
  | crash => simp [hsel]
  | done => simp [hsel]
  | recv c =>
    simp only [hsel]
    split <;> simp

/-- When the deadline wins, main ends abnormally after its one call and touches no file. -/
theorem main_deadline (env : HttpEnv CurrencyQuote) (s : Sched) (fenv : FileEnv)
    (files : Files) (hd : s.deadlineFirst = true) :
    (main env s fenv files).calls = [Call.getDolarQuote] ∧
      (main env s fenv files).exit = Exit.abnormal ∧
      (main env s fenv files).files = files := by
  have h : (getDolarQuote env s).outcome =
      Outcome.returned (none, some GoError.DeadlineExceeded) := by
    unfold getDolarQuote
    cases ha : (getDolarQuoteRequest env CurrencyQuote.zero).action <;>
      simp [selectBranch, ha, hd]
  simp [main, h]

/-- When the call to the inner service fails with a nil response, main ends abnormally after
its one call and touches no file. -/
theorem main_call_failed (env : HttpEnv CurrencyQuote) (s : Sched) (fenv : FileEnv)
    (files : Files) (e : GoError) (hn : env.newRequest = none)
    (hdo : env.doRequest = DoResult.failed e false) :
    (main env s fenv files).calls = [Call.getDolarQuote] ∧
      (main env s fenv files).exit = Exit.abnormal ∧
      (main env s fenv files).files = files := by
  by_cases hd : s.deadlineFirst = true
  · exact main_deadline env s fenv files hd
  · have ha : (getDolarQuoteRequest env CurrencyQuote.zero).action = Action.panicked := by
      simp [getDolarQuoteRequest, hn, hdo]
    have h : (getDolarQuote env s).outcome = Outcome.crashed :=
      (getDolarQuote_crashed env s).2 ⟨ha, by simpa using hd⟩
    simp [main, h]

/-- The good run: the inner service answers in time with bid 5.25 and the disk is fine; the
process ends normally with "Dólar: 5.25" in cotacao.txt. -/
theorem main_innerOk :
    (main Sample.innerOk Sample.workerFirst Sample.diskOk Sample.noFiles).exit = Exit.normal ∧
      (main Sample.innerOk Sample.workerFirst Sample.diskOk Sample.noFiles).files
        "cotacao.txt" = some "Dólar: 5.25" := by
  constructor <;> decide

/-- The slow run: the deadline wins; the process ends abnormally and an older cotacao.txt
stays as it was. -/
theorem main_innerSlow :
    (main Sample.innerOk Sample.deadlineFirst Sample.diskOk Sample.oldFiles).exit =
        Exit.abnormal ∧
      (main Sample.innerOk Sample.deadlineFirst Sample.diskOk Sample.oldFiles).files
        "cotacao.txt" = some "Dólar: 4.99" := by
  constructor <;> decide

/-- The full disk: the write fails after four characters; the process ends abnormally and
cotacao.txt holds what was written. -/
theorem main_diskFull :
    (main Sample.innerOk Sample.workerFirst Sample.diskFull Sample.oldFiles).exit =
        Exit.abnormal ∧
      (main Sample.innerOk Sample.workerFirst Sample.diskFull Sample.oldFiles).files
        "cotacao.txt" = some "Dóla" := by
  constructor <;> decide

/-- C4, at the failing input: the inner service replies 500 with an empty body in time.
The worker logs the parse error and still sends the zero quote, getDolarQuote returns it
with a nil error, main calls storeQuoteFile and ends normally; cotacao.txt is created with
the text "Dólar: ", and an older cotacao.txt is overwritten with it. -/
theorem main_inner500 :
    (getDolarQuote Sample.inner500 Sample.workerFirst).outcome =
        Outcome.returned (some ⟨""⟩, none) ∧
      (main Sample.inner500 Sample.workerFirst Sample.diskOk Sample.noFiles).calls =
        [Call.getDolarQuote, Call.storeQuoteFile (some ⟨""⟩)] ∧
      (main Sample.inner500 Sample.workerFirst Sample.diskOk Sample.noFiles).exit =
        Exit.normal ∧
      (main Sample.inner500 Sample.workerFirst Sample.diskOk Sample.noFiles).files
        "cotacao.txt" = some "Dólar: " ∧
      (main Sample.inner500 Sample.workerFirst Sample.diskOk Sample.oldFiles).files
        "cotacao.txt" = some "Dólar: " := by
  refine ⟨?_, ?_, ?_, ?_, ?_⟩ <;> decide

/-- C5, at the failing input: no inner service is listening. The worker logs the error of
the call and panics on the nil response before the deadline; getDolarQuote yields neither a
value nor an error. And with a body that is not JSON the runner does not end with the
deadline error either: it returns the zero quote with a nil error. -/
theorem getDolarQuote_innerDown :
    (getDolarQuoteRequest Sample.innerDown CurrencyQuote.zero).action = Action.panicked ∧
      (getDolarQuote Sample.innerDown Sample.workerFirst).outcome = Outcome.crashed ∧
      (getDolarQuote Sample.innerMalformed Sample.workerFirst).outcome =
        Outcome.returned (some ⟨""⟩, none) := by
  refine ⟨?_, ?_, ?_⟩ <;> decide

/-- C10, at the failing input: the body of the reply is not JSON. The client worker logs
the parse error and then sends the zero quote on the channel. -/
theorem getDolarQuoteRequest_innerMalformed :
    (getDolarQuoteRequest Sample.innerMalformed CurrencyQuote.zero).log =
        [LogLine.error "" (some (GoError.other "invalid character looking for beginning of value"))] ∧
      (getDolarQuoteRequest Sample.innerMalformed CurrencyQuote.zero).action =
        Action.sent ⟨""⟩ := by
  constructor <;> decide

/-- C7. For every quote with bid b and every prior working directory: when storeQuoteFile
returns nil, the file cotacao.txt holds exactly "Dólar: " followed by b, whatever it held
before, and every other file is as before; it returns nil whenever creating and writing
succeed; a failing os.Create is returned and leaves all files alone; a failing Write is
returned; and bid "5.25" gives "Dólar: 5.25". -/
theorem storeQuoteFile_spec (b : String) (env : FileEnv) (files : Files) :
    ((storeQuoteFile (some ⟨b⟩) env files).outcome = Outcome.returned none →
        (storeQuoteFile (some ⟨b⟩) env files).files "cotacao.txt" = some ("Dólar: " ++ b) ∧
          ∀ n, n ≠ "cotacao.txt" → (storeQuoteFile (some ⟨b⟩) env files).files n = files n) ∧
      (env.create = none → env.write = none →
        (storeQuoteFile (some ⟨b⟩) env files).outcome = Outcome.returned none) ∧
      (∀ e, env.create = some e →
        (storeQuoteFile (some ⟨b⟩) env files).outcome = Outcome.returned (some e) ∧
          (storeQuoteFile (some ⟨b⟩) env files).files = files) ∧
      (∀ e n, env.create = none → env.write = some (e, n) →
        (storeQuoteFile (some ⟨b⟩) env files).outcome = Outcome.returned (some e)) ∧
      (storeQuoteFile (some ⟨"5.25"⟩) Sample.diskOk files).files "cotacao.txt" =
        some "Dólar: 5.25" := by
  obtain ⟨c, w⟩ := env
  refine ⟨?_, ?_, ?_, ?_, ?_⟩
  · cases c <;> cases w <;> simp [storeQuoteFile, Files.put]
    intro n hn
    simp [hn]
  · intro hc hw
    simp at hc hw
    simp [storeQuoteFile, hc, hw]
  · intro e hc
    simp at hc
    simp [storeQuoteFile, hc]
  · intro e n hc hw
    simp at hc hw
    simp [storeQuoteFile, hc, hw]
  · simp [storeQuoteFile, Sample.diskOk, Files.put]

/-- Witness of C7: an old cotacao.txt is replaced by "Dólar: 5.25"; a read-only file
system gives back its error and keeps the old file. -/
theorem storeQuoteFile_spec_witness :
    (storeQuoteFile (some ⟨"5.25"⟩) Sample.diskOk Sample.oldFiles).outcome =
        Outcome.returned none ∧
      (storeQuoteFile (some ⟨"5.25"⟩) Sample.diskOk Sample.oldFiles).files "cotacao.txt" =
        some ("Dólar: " ++ "5.25") ∧
      (storeQuoteFile (some ⟨"5.25"⟩) Sample.diskReadOnly Sample.oldFiles).outcome =
        Outcome.returned (some (GoError.other "read-only file system")) ∧
      (storeQuoteFile (some ⟨"5.25"⟩) Sample.diskReadOnly Sample.oldFiles).files "cotacao.txt" =
        some "Dólar: 4.99" :=
  have h := storeQuoteFile_spec "5.25" Sample.diskOk Sample.oldFiles
  have h2 := storeQuoteFile_spec "5.25" Sample.diskReadOnly Sample.oldFiles
  ⟨h.2.1 rfl rfl, (h.1 (h.2.1 rfl rfl)).1, (h2.2.2.1 _ rfl).1,
    by rw [(h2.2.2.1 _ rfl).2]; decide⟩

end Client

/-! ## Theorems: the budgets -/

/-- The context of the fetch runner is built from the background context with 200ms. -/
theorem getCurrencyQuote_ctx (env : HttpEnv Server.CurrencyQuote) (s : Sched) :
    (Server.getCurrencyQuote env s).ctx =
      WithTimeout Background s.start Server.getCurrencyQuoteTimeout := by
  simp only [Server.getCurrencyQuote]
  repeat (first | rfl | split)

/-- The context of the persistence runner is built from the background context with 10ms. -/
theorem storeCurrencyQuote_ctx (quote : Option Server.CurrencyQuote) (env : Server.StoreEnv)
    (s : Sched) :
    (Server.storeCurrencyQuote quote env s).ctx =
      WithTimeout Background s.start Server.storeCurrencyQuoteTimeout := by
  simp only [Server.storeCurrencyQuote]
  repeat (first | rfl | split)

/-- The context of the client runner is built from the background context with 300ms. -/
theorem getDolarQuote_ctx (env : HttpEnv Client.CurrencyQuote) (s : Sched) :
    (Client.getDolarQuote env s).ctx =
      WithTimeout Background s.start Client.getDolarQuoteTimeout := by
  simp only [Client.getDolarQuote]
  repeat (first | rfl | split)

/-- C9. The three budgets are 300ms (client call), 200ms (fetch) and 10ms (persistence);
200ms is below 300ms, 10ms is below 200ms, and the two server stages together take at most
210ms, below 300ms. Each runner builds its context from the background context, so its
deadline is its own start plus its own budget: a persistence stage that starts after the
fetch used any amount of time still has its deadline a full 10ms after its start. -/
theorem budgets (cenv : HttpEnv Client.CurrencyQuote) (fenv : HttpEnv Server.CurrencyQuote)
    (senv : Server.StoreEnv) (quote : Option Server.CurrencyQuote) (cs fs ss : Sched)
    (used : Nat) :
    Client.getDolarQuoteTimeout = 300 * Millisecond ∧
      Server.getCurrencyQuoteTimeout = 200 * Millisecond ∧
      Server.storeCurrencyQuoteTimeout = 10 * Millisecond ∧
      Server.getCurrencyQuoteTimeout < Client.getDolarQuoteTimeout ∧
      Server.storeCurrencyQuoteTimeout < Server.getCurrencyQuoteTimeout ∧
      Server.getCurrencyQuoteTimeout + Server.storeCurrencyQuoteTimeout = 210 * Millisecond ∧
      Server.getCurrencyQuoteTimeout + Server.storeCurrencyQuoteTimeout <
        Client.getDolarQuoteTimeout ∧
      (Client.getDolarQuote cenv cs).ctx.deadline = some (cs.start + 300 * Millisecond) ∧
      (Server.getCurrencyQuote fenv fs).ctx.deadline = some (fs.start + 200 * Millisecond) ∧
      (Server.storeCurrencyQuote quote senv ss).ctx.deadline =
        some (ss.start + 10 * Millisecond) ∧
      (Server.storeCurrencyQuote quote senv { ss with start := fs.start + used }).ctx.deadline =
        some (fs.start + used + 10 * Millisecond) := by
  rw [getDolarQuote_ctx, getCurrencyQuote_ctx, storeCurrencyQuote_ctx, storeCurrencyQuote_ctx]
  simp [WithTimeout, Background, Client.getDolarQuoteTimeout, Server.getCurrencyQuoteTimeout,
    Server.storeCurrencyQuoteTimeout, Millisecond]

/-! ## Theorems: the handoff -/

namespace Handoff

/-- Nothing can happen once the runner is gone and the worker stands at its send on the
unbuffered channel. -/
theorem next_abandoned {α : Type} (v : α) : next (abandoned v) = [] := by
  simp [next, abandoned, fire, finishWork, rendezvous, bufferedSend, bufferedRecv, timeout,
    chanCap]

/-- From the abandoned state the system stays in the abandoned state. -/
theorem reaches_abandoned {α : Type} (v : α) (t : State α) (h : Reaches (abandoned v) t) :
    t = abandoned v := by
  induction h with
  | refl => rfl
  | tail _ hstep ih =>
    subst ih
    simp [Step, next_abandoned] at hstep

/-- With one slot of buffer the same late send would complete and the worker would end. -/
theorem next_buffered {α : Type} (v : α) :
    next (⟨1, [], true, Waiter.left none, Sender.sending v⟩ : State α) =
      [⟨1, [v], true, Waiter.left none, Sender.finished⟩] := by
  simp [next, fire, finishWork, rendezvous, bufferedSend, bufferedRecv, timeout]

/-- A worker whose unit of work fails returns, also after the runner is gone. -/
theorem next_failed {α : Type} :
    next (⟨chanCap, [], true, Waiter.left none, Sender.working none⟩ : State α) =
      [⟨chanCap, [], true, Waiter.left none, Sender.finished⟩] := by
  simp [next, fire, finishWork, rendezvous, bufferedSend, bufferedRecv, timeout]

/-- When the worker sends before the deadline, the runner receives the value and the worker
ends. -/
theorem reaches_delivered {α : Type} (v : α) :
    Reaches (start (some v)) ⟨chanCap, [], false, Waiter.left (some v), Sender.finished⟩ := by
  have h1 : Step (start (some v))
      ⟨chanCap, [], false, Waiter.selecting, Sender.sending v⟩ := by
    simp [Step, next, fire, finishWork, rendezvous, bufferedSend, bufferedRecv, timeout, start]
  have h2 : Step (⟨chanCap, [], false, Waiter.selecting, Sender.sending v⟩ : State α)
      ⟨chanCap, [], false, Waiter.left (some v), Sender.finished⟩ := by
    simp [Step, next, fire, finishWork, rendezvous, bufferedSend, bufferedRecv, timeout]
  exact Relation.ReflTransGen.tail (Relation.ReflTransGen.single h1) h2

/-- The deadline fires, the runner leaves through `Done`, and the worker then ends its work
with success and comes to its send. -/
theorem reaches_abandoned_from_start {α : Type} (v : α) :
    Reaches (start (some v)) (abandoned v) := by
  have h1 : Step (start (some v))
      ⟨chanCap, [], true, Waiter.selecting, Sender.working (some v)⟩ := by
    simp [Step, next, fire, finishWork, rendezvous, bufferedSend, bufferedRecv, timeout, start]
  have h2 : Step (⟨chanCap, [], true, Waiter.selecting, Sender.working (some v)⟩ : State α)
      ⟨chanCap, [], true, Waiter.left none, Sender.working (some v)⟩ := by
    simp [Step, next, fire, finishWork, rendezvous, bufferedSend, bufferedRecv, timeout]
  have h3 : Step (⟨chanCap, [], true, Waiter.left none, Sender.working (some v)⟩ : State α)
      (abandoned v) := by
    simp [Step, next, fire, finishWork, rendezvous, bufferedSend, bufferedRecv, timeout,
      abandoned]
  exact Relation.ReflTransGen.tail
    (Relation.ReflTransGen.tail (Relation.ReflTransGen.single h1) h2) h3

/-- A step from a state of a successful operation leads to a state of that list. -/
theorem statesOfSuccess_step {α : Type} (v : α) (s t : State α)
    (hs : s ∈ statesOfSuccess v) (hst : Step s t) : t ∈ statesOfSuccess v := by
  simp only [statesOfSuccess, List.mem_cons, List.mem_singleton, List.not_mem_nil,
    or_false] at hs
  rcases hs with rfl | rfl | rfl | rfl | rfl | rfl | rfl | rfl <;>
    simp [Step, next, fire, finishWork, rendezvous, bufferedSend, bufferedRecv, timeout,
      chanCap] at hst <;>
    (try rcases hst with rfl | rfl) <;> simp [statesOfSuccess, chanCap]

/-- Every state a successful operation reaches is in the list. -/
theorem reaches_statesOfSuccess {α : Type} (v : α) (s : State α)
    (h : Reaches (start (some v)) s) : s ∈ statesOfSuccess v := by
  induction h with
  | refl => simp [statesOfSuccess, start]
  | tail _ hstep ih => exact statesOfSuccess_step v _ _ ih hstep

/-- A step from a state of a failing operation leads to a state of that list. -/
theorem statesOfFailure_step {α : Type} (s t : State α)
    (hs : s ∈ statesOfFailure) (hst : Step s t) : t ∈ statesOfFailure := by
  simp only [statesOfFailure, List.mem_cons, List.mem_singleton, List.not_mem_nil,
    or_false] at hs
  rcases hs with rfl | rfl | rfl | rfl | rfl | rfl <;>
    simp [Step, next, fire, finishWork, rendezvous, bufferedSend, bufferedRecv, timeout,
      chanCap] at hst <;>
    (try rcases hst with rfl | rfl) <;> simp [statesOfFailure, chanCap]

/-- A failing worker never delivers: the runner stays in its `select` until it leaves
through `Done`, and a run that cannot go on has the worker terminated. -/
theorem reaches_statesOfFailure {α : Type} (s : State α)
    (h : Reaches (start (none : Option α)) s) :
    s ∈ statesOfFailure ∧ (∀ v, s.waiter ≠ Waiter.left (some v)) ∧
      (next s = [] → s.waiter = Waiter.left none ∧ s.worker = Sender.finished) := by
  have hmem : s ∈ statesOfFailure := by
    induction h with
    | refl => simp [statesOfFailure, start]
    | tail _ hstep ih => exact statesOfFailure_step _ _ ih hstep
  refine ⟨hmem, ?_, ?_⟩ <;>
    simp only [statesOfFailure, List.mem_cons, List.mem_singleton, List.not_mem_nil,
      or_false] at hmem <;>
    rcases hmem with rfl | rfl | rfl | rfl | rfl | rfl <;>
    simp [next, fire, finishWork, rendezvous, bufferedSend, bufferedRecv, timeout, chanCap]

/-- Once the runner is gone through `Done`, every step keeps the worker at work or at its
send. -/
theorem statesOfLeak_step {α : Type} (v : α) (s t : State α)
    (hs : s ∈ statesOfLeak v) (hst : Step s t) : t ∈ statesOfLeak v := by
  simp only [statesOfLeak, List.mem_cons, List.mem_singleton, List.not_mem_nil,
    or_false] at hs
  rcases hs with rfl | rfl
  · simp [Step, next, fire, finishWork, rendezvous, bufferedSend, bufferedRecv, timeout,
      chanCap] at hst
    simp [hst, statesOfLeak, chanCap]
  · simp [Step, next, fire, finishWork, rendezvous, bufferedSend, bufferedRecv, timeout,
      chanCap] at hst

/-- From a state in which the runner is gone through `Done`, only such states are reached. -/
theorem reaches_statesOfLeak {α : Type} (v : α) (s t : State α)
    (hs : s ∈ statesOfLeak v) (h : Reaches s t) : t ∈ statesOfLeak v := by
  induction h with
  | refl => exact hs
  | tail _ hstep ih => exact statesOfLeak_step v _ _ ih hstep

/-- A state of a successful operation in which the runner left without a value is a state
of the leak. -/
theorem left_none_statesOfLeak {α : Type} (v : α) (s : State α)
    (hs : s ∈ statesOfSuccess v) (hleft : s.waiter = Waiter.left none) :
    s ∈ statesOfLeak v := by
  simp only [statesOfSuccess, List.mem_cons, List.mem_singleton, List.not_mem_nil,
    or_false] at hs
  rcases hs with rfl | rfl | rfl | rfl | rfl | rfl | rfl | rfl <;>
    simp [statesOfLeak] at hleft ⊢

/-- C8, as the code has it. The handoff channel has no buffer. A bounded operation whose
work succeeds with v can come to the state where the deadline has won, the runner has
returned and the worker stands at its send, and in that state no step is possible. More
generally, from any state in which the runner has left through the deadline branch, every
later state still has the runner without a value and the worker not terminated: the late
result is never received and the worker goroutine stays blocked. -/
theorem abandoned_worker_blocks {α : Type} (v : α) :
    chanCap = 0 ∧
      Reaches (start (some v)) (abandoned v) ∧
      next (abandoned v) = [] ∧
      (∀ s t, Reaches (start (some v)) s → s.waiter = Waiter.left none → Reaches s t →
        t.waiter = Waiter.left none ∧ t.worker ≠ Sender.finished) := by
  refine ⟨rfl, reaches_abandoned_from_start v, next_abandoned v, ?_⟩
  intro s t hs hleft ht
  have h1 := left_none_statesOfLeak v s (reaches_statesOfSuccess v s hs) hleft
  have h2 := reaches_statesOfLeak v s t h1 ht
  simp only [statesOfLeak, List.mem_cons, List.mem_singleton, List.not_mem_nil,
    or_false] at h2
  rcases h2 with rfl | rfl <;> simp

/-- Witness of C8: the sample quote, with the worker at its send after the runner left. -/
theorem abandoned_worker_blocks_witness :
    Reaches (start (some Sample.quote)) (abandoned Sample.quote) ∧
      (abandoned Sample.quote).waiter = Waiter.left none ∧
      (abandoned Sample.quote).worker ≠ Sender.finished :=
  have h := abandoned_worker_blocks Sample.quote
  ⟨h.2.1, rfl, (h.2.2.2 _ _ h.2.1 rfl Relation.ReflTransGen.refl).2⟩

/-- C8 as stated fails: after the deadline has won and the runner has returned, the worker
that comes to its send with the sample quote never reaches its end. -/
theorem abandoned_worker_never_finishes :
    Reaches (start (some Sample.quote)) (abandoned Sample.quote) ∧
      ¬ ∃ t, Reaches (abandoned Sample.quote) t ∧ t.worker = Sender.finished := by
  refine ⟨reaches_abandoned_from_start _, ?_⟩
  rintro ⟨t, ht, hfin⟩
  rw [reaches_abandoned _ t ht] at hfin
  simp [abandoned] at hfin

end Handoff

end Relay
